import Mathlib

/-!
Verification development for the Technician-Planner repository: a shallow
embedding of the task lifecycle service (backend `taskServices.ts`, controller
in `taskController.ts`, schema in `models/task.ts`) and of the client-side
task cache and presentation rule (frontend `today-tasks.component.ts`,
`task.service.ts`), together with theorems settling the specified properties.

Timestamps (`scheduledTime`, `completedAt`) are modelled as natural numbers
(milliseconds since the epoch, the value of `Date.prototype.getTime`), and
Mongo ObjectIds as natural numbers.
-/

namespace TechnicianPlanner

/-- The `taskType` enumeration from `models/task.ts`. -/
inductive TaskType where
  | installation
  | repair
  | maintenance
  | inspection
deriving DecidableEq, Repr

/-- The two-valued `status` enumeration from `models/task.ts`
(`"Pending" | "Completed"`). -/
inductive TaskStatus where
  | pending
  | completed
deriving DecidableEq, Repr

/-- A task document (`TaskDoc` in `models/task.ts`); `id` is the Mongo `_id`. -/
structure Task where
  id : Nat
  customerName : String
  location : String
  taskType : TaskType
  scheduledTime : Nat
  notes : Option String
  status : TaskStatus
  completedAt : Option Nat
deriving DecidableEq, Repr

/-- The persistent task collection, in insertion order. -/
abbrev Store := List Task

/-- Removal of leading and trailing whitespace, as applied to `customerName`
by the schema's `trim: true` setter. -/
def trimString (s : String) : String :=
  ⟨((s.data.dropWhile Char.isWhitespace).reverse.dropWhile
      Char.isWhitespace).reverse⟩

namespace Backend

/-- The data the controller `createTask` passes to the service: it
destructures exactly `customerName, location, taskType, scheduledTime, notes`
from the request body, so no `status` or `completedAt` key is ever present. -/
structure TaskData where
  customerName : String
  location : String
  taskType : TaskType
  scheduledTime : Nat
  notes : Option String
deriving DecidableEq, Repr

/-- A creation request body as sent by a client. The schema fields the client
may additionally try to supply (`status`, `completedAt`) are included so that
we can state that the controller ignores them. -/
structure CreateRequestBody where
  customerName : String
  location : String
  taskType : TaskType
  scheduledTime : Nat
  notes : Option String
  status : Option TaskStatus
  completedAt : Option Nat
deriving DecidableEq, Repr

/-- Evaluation of `new Task(taskData)` for the `taskData` built by the controller: the
schema trims `customerName`, defaults `status` to `"Pending"` (no `status`
key is in `taskData`), and leaves `completedAt` unset. The store assigns the
fresh ObjectId `newId`. -/
def newTaskFromData (newId : Nat) (d : TaskData) : Task :=
  { id := newId
    customerName := trimString d.customerName
    location := d.location
    taskType := d.taskType
    scheduledTime := d.scheduledTime
    notes := d.notes
    status := .pending
    completedAt := none }

/-- Embedding of `task.validateSync()` under the schema of `models/task.ts`: the required
string paths `customerName` (already trimmed) and `location` must be
non-empty; `taskType` and `scheduledTime` are always present in the typed
model; the defaulted `status` is always a legal enum member. -/
def validateSync (t : Task) : Option String :=
  if t.customerName = "" then some "ValidationError: customerName is required"
  else if t.location = "" then some "ValidationError: location is required"
  else none

/-- Embedding of `createNewTask` from `taskServices.ts`: build the document, run
`validateSync` and throw its error if any, then `save` it (append to the
collection with a fresh id). -/
def createNewTask (newId : Nat) (d : TaskData) (store : Store) :
    Except String Store :=
  let task := newTaskFromData newId d
  match validateSync task with
  | some err => .error err
  | none => .ok (store ++ [task])

/-- The controller `createTask` from the task controller: destructure the
five creation fields from the body (dropping any client-supplied `status` or
`completedAt`) and call `createNewTask`. -/
def createTask (newId : Nat) (body : CreateRequestBody) (store : Store) :
    Except String Store :=
  createNewTask newId
    { customerName := body.customerName
      location := body.location
      taskType := body.taskType
      scheduledTime := body.scheduledTime
      notes := body.notes } store

/-- Embedding of `getAllTasks` from `taskServices.ts`: `Task.find()` returns the whole
collection. -/
def getAllTasks (store : Store) : List Task := store

/-- Persisting a `save` of a document fetched by `findById`: replace the
(unique) document carrying that id. -/
def replaceFirstById : Store → Nat → Task → Store
  | [], _, _ => []
  | t :: ts, i, t' => if t.id = i then t' :: ts else t :: replaceFirstById ts i t'

/-- Embedding of `updateTaskStatus` from `taskServices.ts`: `findById` the task, throw
`"Task not found"` when absent, otherwise set `status = "Completed"` and
`completedAt` to exactly the supplied timestamp and save. -/
def updateTaskStatus (taskId : Nat) (completedAt : Nat) (store : Store) :
    Except String Store :=
  match store.find? (fun t => t.id = taskId) with
  | none => .error "Task not found"
  | some task =>
      .ok (replaceFirstById store taskId
        { task with status := .completed, completedAt := some completedAt })

/-- Embedding of `deleteTask` from `taskServices.ts`. The promise chain throws one
combined error `"Task not found or not completed"` both when no task has the
id and when the task is not Completed, and its trailing `.catch` only logs
that error, so the returned promise always resolves; the function also never
awaits the chain. The second component is the logged error, invisible to the
caller. `findByIdAndDelete` removes the document carrying the id (`_id` is a
unique key, so dropping every match coincides with dropping the one
document). -/
def deleteTask (taskId : Nat) (store : Store) : Store × Option String :=
  match store.find? (fun t => t.id = taskId) with
  | none => (store, some "Task not found or not completed")
  | some task =>
      if task.status ≠ .completed then
        (store, some "Task not found or not completed")
      else
        ((store.filter fun t => t.id ≠ taskId), none)

/-- An HTTP response as produced by the controllers: a success body or an
error status with a message. -/
inductive HttpOutcome where
  | success (msg : String)
  | failure (code : Nat) (msg : String)
deriving DecidableEq, Repr

/-- The controller `deleteGivenTask`: `await deleteTask(taskId)` and respond
`200`. Its `catch` branch (a `500` response) is unreachable because
`deleteTask` swallows every error, so the response is always the success
message. -/
def deleteGivenTask (taskId : Nat) (store : Store) : Store × HttpOutcome :=
  ((deleteTask taskId store).1, .success "Task deleted successfully")

end Backend

namespace Frontend

/-- A message-carrying response body from the API (`ApiMessageResponse` in
the frontend task model). -/
structure ApiMessageResponse where
  message : String
deriving DecidableEq, Repr

/-- The comparator passed to `.sort` in `sortTasks` of
`today-tasks.component.ts`: statuses differing, `'Pending'` compares as `-1`
(first); otherwise the numeric difference of the scheduled times. -/
def taskCompare (a b : Task) : Int :=
  if a.status ≠ b.status then
    (if a.status = .pending then -1 else 1)
  else
    (a.scheduledTime : Int) - (b.scheduledTime : Int)

/-- The total preorder induced by the comparator: `a` may precede `b` exactly
when the comparator does not order `b` strictly first. -/
def taskLE (a b : Task) : Bool := taskCompare a b ≤ 0

/-- Embedding of `sortTasks` from `today-tasks.component.ts`: `[...tasks].sort(cmp)`.
`Array.prototype.sort` is a stable sort (ECMA-262), so on the copied array it
produces the stable merge sort of the input under `cmp(a,b) <= 0`. -/
def sortTasks (tasks : List Task) : List Task :=
  tasks.mergeSort taskLE

/-- The observable effect of the call `this.sortTasks(tasks)` on the caller:
the spread `[...tasks]` copies the array, `.sort` mutates only that copy, so
the pair is (the argument array after the call, the returned fresh array). -/
def sortTasksCall (tasks : List Task) : List Task × List Task :=
  (tasks, sortTasks tasks)

/-- Embedding of `onTaskComplete` from `today-tasks.component.ts`, with the outcome of the
remote `completeTask` call passed explicitly. On success: locate the task by
id; when present, replace it by a copy with `status := Completed` and the new
timestamp and re-sort; when absent, leave the cache alone. On error: leave
the cache alone and `alert` the failure. The second component is the alert
message, if any. -/
def onTaskComplete (taskId : Nat) (completedAt : Nat)
    (remote : Except String Unit) (cache : List Task) :
    List Task × Option String :=
  match remote with
  | .ok _ =>
      match cache.findIdx? (fun t => t.id = taskId) with
      | some i =>
          match cache[i]? with
          | some task =>
              (sortTasks (cache.set i
                { task with status := .completed, completedAt := some completedAt }),
               none)
          | none => (cache, none)
      | none => (cache, none)
  | .error e => (cache, some ("Failed to complete task: " ++ e))

/-- Embedding of `onTaskDelete` from `today-tasks.component.ts`, with the outcome of the
remote `deleteTask` call passed explicitly. On success: filter the id out of
the cache. On error: leave the cache alone and `alert` the failure. -/
def onTaskDelete (taskId : Nat) (remote : Except String Unit)
    (cache : List Task) : List Task × Option String :=
  match remote with
  | .ok _ => ((cache.filter fun t => t.id ≠ taskId), none)
  | .error e => (cache, some ("Failed to delete task: " ++ e))

/-- Embedding of `deleteMultipleTasks` from `task.service.ts`: fan the ids out over
`deleteTask` (`mergeMap` bounded to 3 concurrent requests), replacing each
individual failure with a `Failed to delete task <id>` message entry via
`catchError`, and collect everything with `toArray` into a single emitted
array before completing. Because every inner error is caught, the resulting
observable never errors; the bound of 3 only affects the completion order of
the entries, which we model as the input order. `remote` gives the outcome of
the underlying HTTP DELETE for each id. -/
def deleteMultipleTasks (remote : Nat → Except String ApiMessageResponse)
    (ids : List Nat) : Except String (List ApiMessageResponse) :=
  .ok (ids.map fun id =>
    match remote id with
    | .ok r => r
    | .error _ => { message := "Failed to delete task " ++ toString id })

/-- Embedding of `onClearCompleted` from `today-tasks.component.ts`: collect the Completed
entries; do nothing if there are none or the user does not confirm; otherwise
run `deleteMultipleTasks` on their ids and, in the `next` callback, drop every
Completed task from the cache; the `error` callback would alert, but it is
unreachable since `deleteMultipleTasks` never errors. Result: (new cache,
alert message if any). -/
def onClearCompleted (remote : Nat → Except String ApiMessageResponse)
    (confirmed : Bool) (tasks : List Task) : List Task × Option String :=
  let completedTasks := tasks.filter fun t => t.status = .completed
  if completedTasks.isEmpty then (tasks, none)
  else if ¬ confirmed then (tasks, none)
  else
    match deleteMultipleTasks remote (completedTasks.map Task.id) with
    | .ok _ => ((tasks.filter fun t => ¬ t.status = .completed), none)
    | .error e => (tasks, some ("Failed to clear completed tasks: " ++ e))

end Frontend

/-- A store satisfies the completion invariant when every task carries a
`completedAt` timestamp exactly when its status is Completed. -/
def Consistent (store : Store) : Prop :=
  ∀ t ∈ store, t.completedAt.isSome ↔ t.status = .completed

/-- Store states reachable from the empty collection by the three mutating
operations of the lifecycle service: creation (via the controller), the
completion transition, and deletion. -/
inductive Reachable : Store → Prop where
  | init : Reachable []
  | create {s s' : Store} {newId : Nat} {body : Backend.CreateRequestBody} :
      Reachable s → Backend.createTask newId body s = .ok s' → Reachable s'
  | complete {s s' : Store} {id t : Nat} :
      Reachable s → Backend.updateTaskStatus id t s = .ok s' → Reachable s'
  | delete {s : Store} {id : Nat} :
      Reachable s → Reachable (Backend.deleteTask id s).1

/-- A concrete creation request that also (illegitimately) supplies `status`
and `completedAt`. -/
def bodyEx : Backend.CreateRequestBody :=
  { customerName := "Acme"
    location := "12 Elm St"
    taskType := .repair
    scheduledTime := 900
    notes := none
    status := some .completed
    completedAt := some 99 }

/-- A concrete Pending task. -/
def pendingEx : Task :=
  { id := 1
    customerName := "Acme"
    location := "12 Elm St"
    taskType := .repair
    scheduledTime := 900
    notes := none
    status := .pending
    completedAt := none }

/-- A concrete Completed task. -/
def completedEx : Task :=
  { id := 1
    customerName := "Acme"
    location := "12 Elm St"
    taskType := .repair
    scheduledTime := 900
    notes := none
    status := .completed
    completedAt := some 930 }

/-- First of two concrete Completed tasks for the bulk-clear scenario. -/
def taskA : Task :=
  { id := 1
    customerName := "A"
    location := "L1"
    taskType := .installation
    scheduledTime := 800
    notes := none
    status := .completed
    completedAt := some 900 }

/-- Second of two concrete Completed tasks for the bulk-clear scenario. -/
def taskB : Task :=
  { id := 2
    customerName := "B"
    location := "L2"
    taskType := .repair
    scheduledTime := 810
    notes := none
    status := .completed
    completedAt := some 901 }

/-- A remote whose DELETE fails exactly for id 2. -/
def remoteEx : Nat → Except String Frontend.ApiMessageResponse := fun id =>
  if id = 2 then .error "Server error. Please try again later."
  else .ok { message := "Task deleted successfully" }

section SortLemmas

open Frontend

theorem taskLE_iff (a b : Task) :
    taskLE a b = true ↔
      ((a.status = .pending ∧ b.status = .completed) ∨
       (a.status = b.status ∧ a.scheduledTime ≤ b.scheduledTime)) := by
  simp only [taskLE, taskCompare, decide_eq_true_eq]
  cases ha : a.status <;> cases hb : b.status <;> simp [ha, hb]

theorem taskLE_total (a b : Task) : (taskLE a b || taskLE b a) = true := by
  rw [Bool.or_eq_true, taskLE_iff, taskLE_iff]
  cases ha : a.status <;> cases hb : b.status <;> simp [ha, hb] <;> omega

theorem taskLE_trans (a b c : Task) :
    taskLE a b → taskLE b c → taskLE a c := by
  simp only [taskLE_iff]
  cases ha : a.status <;> cases hb : b.status <;> cases hc : c.status <;>
    simp [ha, hb, hc] <;> omega

/-- Any two tasks agreeing on both sort keys are `taskLE`-equivalent, so a
key-equal sublist is automatically `Pairwise taskLE`. -/
theorem pairwise_taskLE_of_keyEqual (s : TaskStatus) (tm : Nat)
    (l : List Task) (h : ∀ t ∈ l, t.status = s ∧ t.scheduledTime = tm) :
    l.Pairwise (fun a b => taskLE a b = true) := by
  apply List.pairwise_of_forall_mem_list
  intro a ha b hb
  obtain ⟨has, hat⟩ := h a ha
  obtain ⟨hbs, hbt⟩ := h b hb
  rw [taskLE_iff]
  exact Or.inr ⟨has.trans hbs.symm, by rw [hat, hbt]⟩

end SortLemmas

section BackendLemmas

theorem createTask_ok {newId : Nat} {body : Backend.CreateRequestBody}
    {store store' : Store}
    (h : Backend.createTask newId body store = .ok store') :
    store' = store ++ [Backend.newTaskFromData newId
      { customerName := body.customerName
        location := body.location
        taskType := body.taskType
        scheduledTime := body.scheduledTime
        notes := body.notes }] := by
  unfold Backend.createTask Backend.createNewTask at h
  dsimp only at h
  split at h
  · exact absurd h (by simp)
  · exact (Except.ok.inj h).symm

theorem updateTaskStatus_ok {id t : Nat} {store store' : Store}
    (h : Backend.updateTaskStatus id t store = .ok store') :
    ∃ task, store.find? (fun x => x.id = id) = some task ∧
      store' = Backend.replaceFirstById store id
        { task with status := .completed, completedAt := some t } := by
  unfold Backend.updateTaskStatus at h
  cases hfind : store.find? (fun x => x.id = id) with
  | none => rw [hfind] at h; exact absurd h (by simp)
  | some task => rw [hfind] at h; exact ⟨task, rfl, (Except.ok.inj h).symm⟩

theorem find?_replaceFirstById (store : Store) (i : Nat) {task : Task}
    (t' : Task) (h : store.find? (fun x => x.id = i) = some task)
    (ht' : t'.id = i) :
    (Backend.replaceFirstById store i t').find? (fun x => x.id = i) =
      some t' := by
  induction store with
  | nil => simp at h
  | cons hd tl ih =>
    by_cases hh : hd.id = i
    · simp only [Backend.replaceFirstById, if_pos hh]
      exact List.find?_cons_of_pos _ (by simpa using ht')
    · rw [List.find?_cons_of_neg _ (by simpa using hh)] at h
      simp only [Backend.replaceFirstById, if_neg hh]
      rw [List.find?_cons_of_neg _ (by simpa using hh)]
      exact ih h

theorem mem_replaceFirstById {store : Store} {i : Nat} {t' x : Task}
    (hx : x ∈ Backend.replaceFirstById store i t') : x ∈ store ∨ x = t' := by
  induction store with
  | nil => simp [Backend.replaceFirstById] at hx
  | cons hd tl ih =>
    simp only [Backend.replaceFirstById] at hx
    by_cases hh : hd.id = i
    · rw [if_pos hh] at hx
      rcases List.mem_cons.mp hx with h | h
      · exact Or.inr h
      · exact Or.inl (List.mem_cons_of_mem _ h)
    · rw [if_neg hh] at hx
      rcases List.mem_cons.mp hx with h | h
      · exact Or.inl (h ▸ List.mem_cons_self _ _)
      · rcases ih h with h' | h'
        · exact Or.inl (List.mem_cons_of_mem _ h')
        · exact Or.inr h'

theorem mem_deleteTask {store : Store} {i : Nat} {x : Task}
    (hx : x ∈ (Backend.deleteTask i store).1) : x ∈ store := by
  cases hfind : store.find? (fun t => t.id = i) with
  | none => simpa [Backend.deleteTask, hfind] using hx
  | some task =>
    by_cases hs : task.status = .completed
    · simp only [Backend.deleteTask, hfind, hs, ne_eq, not_true_eq_false,
        if_false] at hx
      exact List.mem_of_mem_filter hx
    · simpa [Backend.deleteTask, hfind, hs] using hx

end BackendLemmas

/-- C6: the List Presentation Rule (`sortTasks`) produces a permutation of
its input ordered by the two keys — every Pending task strictly before every
Completed task, and within each status group ascending by scheduled time —
and it is stable: the subsequence of tasks equal on both keys is exactly the
corresponding subsequence of the input, so such tasks keep their relative
order. -/
theorem claim6_sort_spec (xs : List Task) :
    (Frontend.sortTasks xs).Perm xs ∧
    (Frontend.sortTasks xs).Pairwise (fun a b =>
      (a.status = .pending ∧ b.status = .completed) ∨
      (a.status = b.status ∧ a.scheduledTime ≤ b.scheduledTime)) ∧
    ∀ (s : TaskStatus) (tm : Nat),
      (Frontend.sortTasks xs).filter
          (fun t => t.status = s ∧ t.scheduledTime = tm) =
        xs.filter (fun t => t.status = s ∧ t.scheduledTime = tm) := by
  refine ⟨List.mergeSort_perm xs _, ?_, ?_⟩
  · exact (List.sorted_mergeSort taskLE_trans taskLE_total xs).imp
      (fun h => (taskLE_iff _ _).mp h)
  · intro s tm
    have hkey : ∀ t ∈ xs.filter (fun t => t.status = s ∧ t.scheduledTime = tm),
        t.status = s ∧ t.scheduledTime = tm := by
      intro t ht
      simpa using List.of_mem_filter ht
    have hpw := pairwise_taskLE_of_keyEqual s tm _ hkey
    have h1 : List.Sublist
        (xs.filter (fun t => t.status = s ∧ t.scheduledTime = tm))
        (Frontend.sortTasks xs) :=
      List.sublist_mergeSort taskLE_trans taskLE_total hpw (List.filter_sublist xs)
    have h2 : List.Sublist
        (xs.filter (fun t => t.status = s ∧ t.scheduledTime = tm))
        ((Frontend.sortTasks xs).filter
          (fun t => t.status = s ∧ t.scheduledTime = tm)) := by
      simpa [List.filter_filter, Bool.and_self] using
        List.Sublist.filter (fun t => decide (t.status = s ∧ t.scheduledTime = tm)) h1
    have hlen : ((Frontend.sortTasks xs).filter
          (fun t => t.status = s ∧ t.scheduledTime = tm)).length =
        (xs.filter (fun t => t.status = s ∧ t.scheduledTime = tm)).length :=
      ((List.mergeSort_perm xs _).filter _).length_eq
    exact (h2.eq_of_length hlen.symm).symm

/-- C8: the List Presentation Rule is idempotent — sorting its own output
yields the same sequence as sorting once. -/
theorem claim8_sort_idempotent (xs : List Task) :
    Frontend.sortTasks (Frontend.sortTasks xs) = Frontend.sortTasks xs :=
  List.mergeSort_of_sorted (List.sorted_mergeSort taskLE_trans taskLE_total xs)

/-- C10: the call `sortTasks(tasks)` leaves its argument array untouched
(`[...tasks]` copies before sorting) and returns a fresh array that is a
permutation of the input — the same task objects, none added, dropped or
duplicated. -/
theorem claim10_sort_no_mutation (xs : List Task) :
    (Frontend.sortTasksCall xs).1 = xs ∧
    (Frontend.sortTasksCall xs).2.Perm xs :=
  ⟨rfl, List.mergeSort_perm xs _⟩

/-- C4: every successful creation appends a task whose status is Pending and
whose `completedAt` is absent, whatever the request body carried — the
controller destructures only the five creation fields, so client-supplied
`status`/`completedAt` never reach the stored record. -/
theorem claim4_create_forces_pending (newId : Nat)
    (body : Backend.CreateRequestBody) (store store' : Store)
    (h : Backend.createTask newId body store = .ok store') :
    ∃ t, store' = store ++ [t] ∧ t.status = .pending ∧ t.completedAt = none :=
  ⟨_, createTask_ok h, rfl, rfl⟩

/-- Witness for C4 at a request that supplies `status = Completed` and a
`completedAt` value: the stored record is Pending with no timestamp. -/
theorem claim4_create_forces_pending_witness :
    Backend.createTask 1 bodyEx [] = .ok [pendingEx] ∧
    ∃ t, ([pendingEx] : Store) = [] ++ [t] ∧
      t.status = .pending ∧ t.completedAt = none := by
  have hc : Backend.createTask 1 bodyEx [] = .ok [pendingEx] := by rfl
  exact ⟨hc, claim4_create_forces_pending 1 bodyEx [] [pendingEx] hc⟩

/-- C5: completing a nonexistent id fails with the not-found error; otherwise
the found task's status becomes Completed and its `completedAt` becomes
exactly the supplied timestamp `t`, for every supplied `t` — the server never
substitutes a default of its own. -/
theorem claim5_complete_behavior (id t : Nat) (store : Store) :
    (store.find? (fun x => x.id = id) = none →
      Backend.updateTaskStatus id t store = .error "Task not found") ∧
    (∀ task, store.find? (fun x => x.id = id) = some task →
      ∃ store', Backend.updateTaskStatus id t store = .ok store' ∧
        store'.find? (fun x => x.id = id) =
          some { task with status := .completed, completedAt := some t }) := by
  constructor
  · intro hnone
    unfold Backend.updateTaskStatus
    rw [hnone]
  · intro task hfind
    have hid : task.id = id := by simpa using List.find?_some hfind
    refine ⟨Backend.replaceFirstById store id
      { task with status := .completed, completedAt := some t }, ?_, ?_⟩
    · unfold Backend.updateTaskStatus
      rw [hfind]
    · exact find?_replaceFirstById store id _ hfind (by simp [hid])

/-- Witness for C5: completing id 1 in the empty store fails with the
not-found error; completing the concrete Pending task with timestamp 930
yields a record with status Completed and `completedAt = 930`. -/
theorem claim5_complete_behavior_witness :
    Backend.updateTaskStatus 1 930 [] = .error "Task not found" ∧
    ∃ store', Backend.updateTaskStatus 1 930 [pendingEx] = .ok store' ∧
      store'.find? (fun x => x.id = 1) =
        some { pendingEx with status := .completed, completedAt := some 930 } :=
  ⟨(claim5_complete_behavior 1 930 []).1 rfl,
   (claim5_complete_behavior 1 930 [pendingEx]).2 pendingEx (by rfl)⟩

/-- C3: on every store reachable from the empty collection by the create,
complete and delete operations, a task carries a `completedAt` timestamp
exactly when its status is Completed; the invariant is preserved by each
operation. -/
theorem claim3_completedAt_invariant (s : Store) (h : Reachable s) :
    Consistent s := by
  induction h with
  | init =>
      intro t ht
      simp at ht
  | create hr hop ih =>
      intro x hx
      rw [createTask_ok hop] at hx
      rcases List.mem_append.mp hx with h' | h'
      · exact ih x h'
      · have hx' := List.mem_singleton.mp h'
        subst hx'
        simp [Backend.newTaskFromData]
  | complete hr hop ih =>
      intro x hx
      obtain ⟨task, hfind, rfl⟩ := updateTaskStatus_ok hop
      rcases mem_replaceFirstById hx with h' | h'
      · exact ih x h'
      · subst h'
        simp
  | delete hr ih =>
      intro x hx
      exact ih x (mem_deleteTask hx)

/-- Witness for C3: the store obtained by creating a task and then completing
it is reachable and satisfies the invariant. -/
theorem claim3_completedAt_invariant_witness : Consistent [completedEx] :=
  claim3_completedAt_invariant [completedEx]
    (@Reachable.complete [pendingEx] [completedEx] 1 930
      (@Reachable.create [] [pendingEx] 1 bodyEx Reachable.init (by rfl))
      (by rfl))

/-- C7: when the remote call of a single-task completion or deletion fails,
the client task cache is returned exactly as it was, and the failure is
surfaced as an alert carrying the error message; the handler issues no
retry — the error branch only alerts. -/
theorem claim7_failure_leaves_cache (taskId completedAt : Nat) (e : String)
    (cache : List Task) :
    Frontend.onTaskComplete taskId completedAt (.error e) cache =
      (cache, some ("Failed to complete task: " ++ e)) ∧
    Frontend.onTaskDelete taskId (.error e) cache =
      (cache, some ("Failed to delete task: " ++ e)) :=
  ⟨rfl, rfl⟩

/-- C9: `deleteMultipleTasks` always completes with a single `.ok` array
holding one entry per input identifier — position `i` carries the remote's
response for `ids[i]`, or the `Failed to delete task` message when that
delete failed — and never signals an error. -/
theorem claim9_deleteMultiple_total
    (remote : Nat → Except String Frontend.ApiMessageResponse)
    (ids : List Nat) :
    ∃ rs, Frontend.deleteMultipleTasks remote ids = .ok rs ∧
      rs.length = ids.length ∧
      ∀ i : Nat, rs[i]? = (ids[i]?).map (fun id =>
        match remote id with
        | .ok r => r
        | .error _ => { message := "Failed to delete task " ++ toString id }) :=
  ⟨_, rfl, List.length_map _ _, fun i => by simp [List.getElem?_map]⟩

/-- C1 is false on the code: deleting the concrete Pending task does not fail
with a `PreconditionError` (nor any error) — the response is the 200 success
message, and the internally logged message is the same one produced for a
nonexistent id, so the two failure cases are not distinguished either. -/
theorem claim1_counterexample :
    Backend.deleteGivenTask 1 [pendingEx] =
      ([pendingEx], .success "Task deleted successfully") ∧
    (Backend.deleteTask 1 [pendingEx]).2 = (Backend.deleteTask 99 [pendingEx]).2 :=
  ⟨rfl, rfl⟩

/-- C1 (amended): for every id, when no task has the id or the found task is
not Completed, `deleteTask` internally produces the single combined
`Task not found or not completed` error which its own catch swallows, so the
caller observes the 200 success response and the store is unchanged; when the
found task is Completed, the record is removed and a subsequent `ListAll` no
longer contains a task with that id. -/
theorem claim1_delete_amended (id : Nat) (store : Store) :
    ((store.find? (fun t => t.id = id) = none ∨
      (∃ task, store.find? (fun t => t.id = id) = some task ∧
        task.status ≠ .completed)) →
      Backend.deleteGivenTask id store =
        (store, .success "Task deleted successfully") ∧
      (Backend.deleteTask id store).2 =
        some "Task not found or not completed") ∧
    (∀ task, store.find? (fun t => t.id = id) = some task →
      task.status = .completed →
      Backend.deleteGivenTask id store =
        ((store.filter fun t => t.id ≠ id),
          .success "Task deleted successfully") ∧
      ∀ t ∈ Backend.getAllTasks (Backend.deleteGivenTask id store).1,
        ¬ t.id = id) := by
  constructor
  · rintro (hnone | ⟨task, hfind, hst⟩)
    · unfold Backend.deleteGivenTask Backend.deleteTask
      rw [hnone]
      exact ⟨rfl, rfl⟩
    · unfold Backend.deleteGivenTask Backend.deleteTask
      rw [hfind]
      simp [hst]
  · intro task hfind hst
    unfold Backend.getAllTasks Backend.deleteGivenTask Backend.deleteTask
    rw [hfind]
    simp only [hst, ne_eq, not_true_eq_false, if_false]
    refine ⟨trivial, ?_⟩
    intro t ht
    simpa using (List.mem_filter.mp ht).2

/-- Witness for C1 (amended), exercising all three branches: a nonexistent
id, the Pending task, and the Completed task. -/
theorem claim1_delete_amended_witness :
    (Backend.deleteGivenTask 99 [pendingEx] =
        ([pendingEx], .success "Task deleted successfully") ∧
      (Backend.deleteTask 99 [pendingEx]).2 =
        some "Task not found or not completed") ∧
    (Backend.deleteGivenTask 1 [pendingEx] =
        ([pendingEx], .success "Task deleted successfully") ∧
      (Backend.deleteTask 1 [pendingEx]).2 =
        some "Task not found or not completed") ∧
    (Backend.deleteGivenTask 1 [completedEx] =
        (([completedEx] : Store).filter (fun t => t.id ≠ 1),
          .success "Task deleted successfully") ∧
      ∀ t ∈ Backend.getAllTasks (Backend.deleteGivenTask 1 [completedEx]).1,
        ¬ t.id = 1) :=
  ⟨(claim1_delete_amended 99 [pendingEx]).1 (Or.inl rfl),
   (claim1_delete_amended 1 [pendingEx]).1 (Or.inr ⟨pendingEx, rfl, by decide⟩),
   (claim1_delete_amended 1 [completedEx]).2 completedEx rfl rfl⟩

/-- C2 is false on the code: over the two Completed tasks with the remote
delete failing for id 2, the resulting cache is empty — the task whose
deletion failed is removed from the cache as well — and no failure is
surfaced (the alert slot is `none`). -/
theorem claim2_counterexample :
    Frontend.onClearCompleted remoteEx true [taskA, taskB] = ([], none) ∧
    taskB ∉ (Frontend.onClearCompleted remoteEx true [taskA, taskB]).1 := by
  refine ⟨rfl, ?_⟩
  simp [show Frontend.onClearCompleted remoteEx true [taskA, taskB] =
    ([], none) from rfl]

/-- C2 (amended): a confirmed bulk-clear over a cache with at least one
Completed task always removes every Completed task from the cache — including
any whose remote deletion failed — and surfaces no failure; the individual
deletions are still all issued: the bulk call returns one response entry per
Completed id, failures included, without aborting. -/
theorem claim2_clearCompleted_amended
    (remote : Nat → Except String Frontend.ApiMessageResponse)
    (tasks : List Task)
    (h : (tasks.filter fun t => t.status = .completed) ≠ []) :
    (Frontend.onClearCompleted remote true tasks).1 =
      (tasks.filter fun t => ¬ t.status = .completed) ∧
    (Frontend.onClearCompleted remote true tasks).2 = none ∧
    ∃ rs, Frontend.deleteMultipleTasks remote
        ((tasks.filter fun t => t.status = .completed).map Task.id) = .ok rs ∧
      rs.length = (tasks.filter fun t => t.status = .completed).length := by
  have hne : (tasks.filter fun t => t.status = .completed).isEmpty = false := by
    simpa [List.isEmpty_iff] using h
  unfold Frontend.onClearCompleted
  simp only [hne, Bool.false_eq_true, if_false, not_true, Frontend.deleteMultipleTasks]
  exact ⟨trivial, trivial, _, rfl, by simp⟩

/-- Witness for C2 (amended) at the concrete two-task bulk-clear scenario
with the remote failing for id 2. -/
theorem claim2_clearCompleted_amended_witness :
    (Frontend.onClearCompleted remoteEx true [taskA, taskB]).1 =
      ([taskA, taskB].filter fun t => ¬ t.status = .completed) ∧
    (Frontend.onClearCompleted remoteEx true [taskA, taskB]).2 = none ∧
    ∃ rs, Frontend.deleteMultipleTasks remoteEx
        (([taskA, taskB].filter fun t => t.status = .completed).map Task.id) =
          .ok rs ∧
      rs.length = ([taskA, taskB].filter fun t => t.status = .completed).length :=
  claim2_clearCompleted_amended remoteEx [taskA, taskB] (by decide)

end TechnicianPlanner
